import Mathlib

/-!
Shallow embedding of `src/PDF-Downloader.py` and verification of the
specification's claims about it.

Python strings are modelled as `List Char`; pandas DataFrames as Lean lists of
records; the filesystem (the download directory) as a list of basenames; the
network and the file write inside `download_file` as an oracle value
(`FetchResult`) describing where the try-block of the source succeeds or fails.
-/

namespace PDFDownloader

/-- A Python string, modelled as its list of characters. -/
abbrev Str : Type := List Char

/-- Embed a Lean string literal as a `Str`. -/
def str (s : String) : Str := s.toList

/-- `ID_COLUMN = 'BRnum'` (line 16). -/
def ID_COLUMN : Str := str "BRnum"

/-- `MAX_DOWNLOADS = 10` (line 19). -/
def MAX_DOWNLOADS : Nat := 10

/-- `MAX_CONCURRENT_THREADS = 5` (line 22). -/
def MAX_CONCURRENT_THREADS : Nat := 5

/-- One row of the source reports table: the two URL columns used by
`download_file` (lines 67-72); `none` models a NaN cell. -/
structure Row where
  Pdf_URL : Option Str
  Report_Html_Address : Option Str
deriving DecidableEq

/-- URL selection of `download_file` (lines 67-72): prefer `Pdf_URL` when it is
not NaN, fall back to `Report Html Address`. -/
def choose_url (row : Row) : Option Str :=
  match row.Pdf_URL with
  | some u => some u
  | none => row.Report_Html_Address

/-- Where the try-block of `download_file` (lines 65-86) succeeds or raises:
`ok` means the fetch and the whole file write succeeded; `requestError` a
`requests.exceptions.RequestException` (lines 87-92, includes timeouts and
`raise_for_status`); `writeError` an exception raised while writing the already
opened file (the file persists, partially written, under the final name);
`otherError` any other exception raised before the write starts (lines 93-98). -/
inductive FetchResult where
  | ok
  | requestError (e : Str)
  | writeError (e : Str)
  | otherError (e : Str)
deriving DecidableEq

/-- `download_file(index, row, download_errors)` (lines 55-104).

State passed explicitly: `fs` is the list of basenames in `DOWNLOAD_DIR`,
`download_errors` the shared error list.  Returns the new `fs`, the new
`download_errors` and the `success` flag.  On failure the source appends the
index and then the error message (lines 90-91 and 96-97); `open(file_path,'wb')`
creates the file before writing, so a `writeError` leaves `<index>.pdf` on disk. -/
def download_file (index : Str) (row : Row) (res : FetchResult)
    (fs : List Str) (download_errors : List Str) :
    List Str × List Str × Bool :=
  match res with
  | .ok =>
      ((index ++ str ".pdf") :: fs, download_errors, true)
  | .requestError e =>
      (fs, download_errors ++ [index, str "Network error: " ++ e], false)
  | .writeError e =>
      ((index ++ str ".pdf") :: fs, download_errors ++ [index, str "Unexpected error: " ++ e], false)
  | .otherError e =>
      (fs, download_errors ++ [index, str "Unexpected error: " ++ e], false)

/-- Whether a basename matches `glob.glob("*.pdf")` (line 48): it ends in
`.pdf` and, per glob's rule, is not a hidden file (leading dot). -/
def glob_pdf (f : Str) : Bool :=
  (str ".pdf").isSuffixOf f && !(f.headD ' ' == '.')

/-- `get_existing_downloads()` (lines 40-53): list the `*.pdf` basenames of the
download directory and strip the last four characters (`[:-4]`) of each. -/
def get_existing_downloads (fs : List Str) : List Str :=
  let downloaded_files := fs.filter glob_pdf
  downloaded_files.map (fun f => f.take (f.length - 4))

/-- One row of the `Download_Status.xlsx` table: columns
`["Report ID", "Status", "Error Message"]` (line 186). -/
structure StatusRecord where
  reportId : Str
  status : Str
  errorMessage : Str
deriving DecidableEq

/-- The error-message lookup of `create_output_report` (lines 175-182):
`download_errors.index(index)` is the first position of `index`; the element
after it (when in range) is taken as the message; when `index` is absent the
message is `"File not found"`. -/
def lookup_error (download_errors : List Str) (index : Str) : Str :=
  match download_errors.findIdx? (fun e => e == index) with
  | some error_idx =>
      if error_idx + 1 < download_errors.length then
        download_errors.getD (error_idx + 1) (str "")
      else str ""
  | none => str "File not found"

/-- The loop body of `create_output_report` (lines 170-183): the row appended
for one index; `"Downloaded"` iff `os.path.exists(DOWNLOAD_DIR/<index>.pdf)`. -/
def status_row (fs download_errors : List Str) (index : Str) : StatusRecord :=
  if fs.contains (index ++ str ".pdf") then
    { reportId := index, status := str "Downloaded", errorMessage := str "" }
  else
    { reportId := index, status := str "Failed",
      errorMessage := lookup_error download_errors index }

/-- `new_output_df` of `create_output_report` (lines 169-186): one status row
per item of the download queue, in queue order. -/
def new_output (download_queue fs download_errors : List Str) : List StatusRecord :=
  download_queue.map (status_row fs download_errors)

/-- pandas `drop_duplicates(subset=[key], keep="last")` (lines 200 and 270): a
row survives exactly when no later row carries the same key; surviving rows keep
their order. -/
def drop_duplicates_keep_last {α : Type} (key : α → Str) : List α → List α
  | [] => []
  | r :: rs =>
      if rs.any (fun s => key s == key r) then drop_duplicates_keep_last key rs
      else r :: drop_duplicates_keep_last key rs

/-- `create_output_report(download_queue, download_errors)` (lines 158-211).
`existing_df` is the previously persisted `Download_Status.xlsx` when it exists
and is readable (`none` models both the missing file, line 205, and the
unreadable file, lines 201-204).  Returns the table that is persisted. -/
def create_output_report (existing_df : Option (List StatusRecord))
    (download_queue fs download_errors : List Str) : List StatusRecord :=
  let new_output_df := new_output download_queue fs download_errors
  match existing_df with
  | some existing => drop_duplicates_keep_last StatusRecord.reportId (existing ++ new_output_df)
  | none => new_output_df

/-- One row of the metadata table: the key column `BRnum`, the
`pdf_downloaded` flag, and the remaining columns as an association list. -/
structure MetadataRecord where
  BRnum : Str
  pdf_downloaded : Str
  extra : List (Str × Str)
deriving DecidableEq

/-- The reports DataFrame as seen by `update_metadata`: its column names and
its rows, each an index value with the cell of every column. -/
structure ReportsData where
  cols : List Str
  rows : List (Str × List (Str × Str))
deriving DecidableEq

/-- `reports_data.loc[report_id, col]` (line 252). -/
def reports_data_loc (rd : ReportsData) (report_id col : Str) : Str :=
  match rd.rows.find? (fun r => r.fst == report_id) with
  | some r => ((r.snd.find? (fun p => p.fst == col)).map Prod.snd).getD (str "")
  | none => str ""

/-- The `new_records` loop of `update_metadata` (lines 237-254): one record per
queue item; the flag is `"Yes"` iff the id is among `get_existing_downloads()`;
extra columns are copied from the source row only when the id is in
`reports_data.index` and the column name already exists in the persisted
metadata schema `metadata_cols` and is neither `ID_COLUMN` nor
`'pdf_downloaded'`. -/
def new_metadata_records (download_queue : List Str) (reports_data : ReportsData)
    (metadata_cols : List Str) (fs : List Str) : List MetadataRecord :=
  let downloaded_files := get_existing_downloads fs
  download_queue.map (fun report_id =>
    let status := if downloaded_files.contains report_id then str "Yes" else str "No"
    let extra :=
      if (reports_data.rows.map Prod.fst).contains report_id then
        (reports_data.cols.filter (fun col =>
            metadata_cols.contains col && !(col == ID_COLUMN)
              && !(col == str "pdf_downloaded"))).map
          (fun col => (col, reports_data_loc reports_data report_id col))
      else []
    { BRnum := report_id, pdf_downloaded := status, extra := extra })

/-- `update_metadata(download_queue, reports_data)` (lines 213-278):
concatenate the loaded metadata table with the new records and deduplicate by
`BRnum` keeping the last entry (lines 266-270).  `metadata_cols` is the schema
of the loaded table (line 251).  Returns the table that is persisted. -/
def update_metadata (metadata_df : List MetadataRecord) (metadata_cols : List Str)
    (download_queue : List Str) (reports_data : ReportsData)
    (fs : List Str) : List MetadataRecord :=
  let new_data := new_metadata_records download_queue reports_data metadata_cols fs
  drop_duplicates_keep_last MetadataRecord.BRnum (metadata_df ++ new_data)

/-- The pruning step of `main` (lines 421-426): drop every queue index already
among `get_existing_downloads()`. -/
def prune_queue (download_queue fs : List Str) : List Str :=
  let existing_downloads := get_existing_downloads fs
  download_queue.filter (fun idx => !existing_downloads.contains idx)

/-- The batch cap of `main` (lines 430-434): keep at most `MAX_DOWNLOADS`. -/
def cap_queue (download_queue : List Str) : List Str :=
  if download_queue.length > MAX_DOWNLOADS then download_queue.take MAX_DOWNLOADS
  else download_queue

/-- State of `download_pdfs` (lines 106-156): queue items not yet started (in
queue order), threads currently alive, threads already finished. -/
structure OrchState where
  pending : List Str
  running : List Str
  finished : List Str
deriving DecidableEq

/-- One step of `download_pdfs` with concurrency bound `C`
(`MAX_CONCURRENT_THREADS` in the source).  `start` dispatches the next queue
item: the admission loop (lines 144-146) runs after each `thread.start()` and
blocks until fewer than `C` threads are alive, so whenever a start happens (the
first one included, since the count is then `0 < C` for `C ≥ 1`) fewer than `C`
threads are alive.  `finish` is a running download completing; only the
scheduler decides when. -/
inductive OrchStep (C : Nat) : OrchState → OrchState → Prop where
  | start (id : Str) (rest : List Str) (s : OrchState) :
      s.pending = id :: rest → s.running.length < C →
      OrchStep C s ⟨rest, id :: s.running, s.finished⟩
  | finish (id : Str) (s : OrchState) :
      id ∈ s.running →
      OrchStep C s ⟨s.pending, s.running.erase id, s.finished ++ [id]⟩

/-- States reachable by `download_pdfs` from the initial state where the whole
queue `W` is pending and no thread has been started. -/
inductive OrchReachable (C : Nat) (W : List Str) : OrchState → Prop where
  | init : OrchReachable C W ⟨W, [], []⟩
  | step {s t : OrchState} :
      OrchReachable C W s → OrchStep C s t → OrchReachable C W t

/-! ### Helper lemmas -/

theorem status_row_reportId (fs download_errors : List Str) (index : Str) :
    (status_row fs download_errors index).reportId = index := by
  unfold status_row
  split <;> rfl

theorem new_output_map_reportId (download_queue fs download_errors : List Str) :
    (new_output download_queue fs download_errors).map StatusRecord.reportId = download_queue := by
  unfold new_output
  rw [List.map_map]
  have h : ∀ x ∈ download_queue,
      (StatusRecord.reportId ∘ status_row fs download_errors) x = id x := by
    intro x _
    simp [Function.comp, status_row_reportId]
  rw [List.map_congr_left h, List.map_id]

theorem ddkl_cons {α : Type} (key : α → Str) (r : α) (rs : List α) :
    drop_duplicates_keep_last key (r :: rs) =
      if rs.any (fun s => key s == key r) then drop_duplicates_keep_last key rs
      else r :: drop_duplicates_keep_last key rs := rfl

theorem ddkl_append {α : Type} (key : α → Str) (P N : List α) :
    drop_duplicates_keep_last key (P ++ N) =
      (drop_duplicates_keep_last key P).filter
          (fun r => !N.any (fun s => key s == key r))
        ++ drop_duplicates_keep_last key N := by
  induction P with
  | nil => simp [drop_duplicates_keep_last]
  | cons r rs ih =>
      rw [List.cons_append, ddkl_cons, ddkl_cons, List.any_append]
      cases h1 : rs.any (fun s => key s == key r) with
      | true =>
          simp only [h1, Bool.true_or, if_true]
          exact ih
      | false =>
          cases h2 : N.any (fun s => key s == key r) with
          | true =>
              simp only [h1, h2, Bool.false_or, if_true, if_false, List.filter_cons,
                Bool.not_true, Bool.false_eq_true, ite_false]
              exact ih
          | false =>
              simp only [h1, h2, Bool.false_or, if_false, List.filter_cons,
                Bool.not_false, Bool.false_eq_true, ite_true, List.cons_append]
              rw [ih]

theorem ddkl_sublist {α : Type} (key : α → Str) (L : List α) :
    (drop_duplicates_keep_last key L).Sublist L := by
  induction L with
  | nil => simp [drop_duplicates_keep_last]
  | cons r rs ih =>
      unfold drop_duplicates_keep_last
      split
      · exact ih.trans (List.sublist_cons_self r rs)
      · exact ih.cons₂ r

theorem ddkl_mem {α : Type} {key : α → Str} {L : List α} {x : α}
    (h : x ∈ drop_duplicates_keep_last key L) : x ∈ L :=
  (ddkl_sublist key L).mem h

theorem ddkl_keys_nodup {α : Type} (key : α → Str) (L : List α) :
    ((drop_duplicates_keep_last key L).map key).Nodup := by
  induction L with
  | nil => simp [drop_duplicates_keep_last]
  | cons r rs ih =>
      unfold drop_duplicates_keep_last
      split
      · exact ih
      · rename_i h
        refine List.Nodup.cons ?_ ih
        intro hmem
        rcases List.mem_map.mp hmem with ⟨s, hs, hkey⟩
        have hsrs : s ∈ rs := ddkl_mem hs
        have : rs.any (fun s => key s == key r) = true :=
          List.any_eq_true.mpr ⟨s, hsrs, by simp [hkey]⟩
        simp [this] at h

theorem ddkl_eq_self_of_nodup {α : Type} (key : α → Str) (L : List α)
    (h : (L.map key).Nodup) : drop_duplicates_keep_last key L = L := by
  induction L with
  | nil => rfl
  | cons r rs ih =>
      rw [List.map_cons, List.nodup_cons] at h
      have hany : rs.any (fun s => key s == key r) = false := by
        rw [Bool.eq_false_iff]
        intro hc
        rcases List.any_eq_true.mp hc with ⟨s, hs, hkey⟩
        exact h.1 (List.mem_map.mpr ⟨s, hs, by simpa using hkey⟩)
      unfold drop_duplicates_keep_last
      rw [hany]
      simp [ih h.2]

theorem ddkl_idem {α : Type} (key : α → Str) (L : List α) :
    drop_duplicates_keep_last key (drop_duplicates_keep_last key L) =
      drop_duplicates_keep_last key L :=
  ddkl_eq_self_of_nodup key _ (ddkl_keys_nodup key L)

theorem ddkl_filter_self_eq_nil {α : Type} (key : α → Str) (N : List α) :
    (drop_duplicates_keep_last key N).filter
        (fun r => !N.any (fun s => key s == key r)) = [] := by
  rw [List.filter_eq_nil_iff]
  intro r hr
  have : N.any (fun s => key s == key r) = true :=
    List.any_eq_true.mpr ⟨r, ddkl_mem hr, by simp⟩
  simp [this]

theorem ddkl_merge_idem {α : Type} (key : α → Str) (T N : List α) :
    drop_duplicates_keep_last key (drop_duplicates_keep_last key (T ++ N) ++ N) =
      drop_duplicates_keep_last key (T ++ N) := by
  rw [ddkl_append key (drop_duplicates_keep_last key (T ++ N)) N, ddkl_idem]
  nth_rewrite 1 [ddkl_append key T N]
  rw [List.filter_append, ddkl_filter_self_eq_nil, List.append_nil,
    List.filter_filter]
  have : ∀ (p : α → Bool) (l : List α), l.filter (fun a => p a && p a) = l.filter p := by
    intro p l
    apply List.filter_congr
    intro a _
    cases p a <;> rfl
  rw [this]
  rw [ddkl_append key T N]

/-! ### Claim theorems -/

/-- C1: for every dispatched download queue, the run's status report contains
exactly one row per queue item — the row identifiers match the queue exactly
(same identifiers, same multiplicities, no omission, no extra), and the number
of rows equals the number of items. -/
theorem report_one_row_per_item (download_queue fs download_errors : List Str) :
    (new_output download_queue fs download_errors).map StatusRecord.reportId = download_queue
    ∧ (new_output download_queue fs download_errors).length = download_queue.length :=
  ⟨new_output_map_reportId download_queue fs download_errors, by simp [new_output]⟩

/-- C2: for every concurrency bound `C ≥ 1` and every queue `W`, in every state
`download_pdfs` can reach, at most `C` download threads are alive: the
admission loop blocks new starts until fewer than `C` threads are alive. -/
theorem download_pdfs_concurrency_bound (C : Nat) (W : List Str) (s : OrchState)
    (hC : 1 ≤ C) (h : OrchReachable C W s) : s.running.length ≤ C := by
  induction h with
  | init => exact Nat.zero_le C
  | step hr hstep ih =>
      cases hstep with
      | start id rest _ hp hlt => exact hlt
      | finish id _ hmem =>
          exact le_trans (List.Sublist.length_le (List.erase_sublist id _)) ih

theorem download_pdfs_concurrency_bound_witness :
    1 ≤ 1
    ∧ OrchReachable 1 [str "A", str "B"] ⟨[str "B"], [str "A"], []⟩
    ∧ (⟨[str "B"], [str "A"], []⟩ : OrchState).running.length ≤ 1 := by
  have hreach : OrchReachable 1 [str "A", str "B"] ⟨[str "B"], [str "A"], []⟩ :=
    OrchReachable.step OrchReachable.init
      (OrchStep.start (str "A") [str "B"] ⟨[str "A", str "B"], [], []⟩ rfl (by decide))
  exact ⟨le_refl 1, hreach,
    download_pdfs_concurrency_bound 1 [str "A", str "B"] _ (le_refl 1) hreach⟩

/-- C4 (code-bug evidence): two units failing concurrently can interleave
their two separate `download_errors.append` calls (source lines 90-91) into
the ledger A, B, messageA, messageB — each unit appended exactly its own
identifier and its own message (the two Sublist conjuncts) — and then the
positional lookup of `create_output_report` (lines 177-180) attributes to A
the identifier "B" as its error message, and to B the message of A. -/
theorem interleaved_appends_misattribute_errors :
    [str "A", str "Network error: reset"].Sublist
        [str "A", str "B", str "Network error: reset", str "Network error: timeout"]
    ∧ [str "B", str "Network error: timeout"].Sublist
        [str "A", str "B", str "Network error: reset", str "Network error: timeout"]
    ∧ new_output [str "A", str "B"] []
        [str "A", str "B", str "Network error: reset", str "Network error: timeout"]
      = [{ reportId := str "A", status := str "Failed", errorMessage := str "B" },
         { reportId := str "B", status := str "Failed",
           errorMessage := str "Network error: reset" }] :=
  ⟨by decide, by decide, by decide⟩

/-- C5 (code-bug evidence): `download_file` opens the final name `<index>.pdf`
directly (lines 82-84), so a unit whose write raises mid-way reports failure
yet leaves the partially written file on disk under the final name — the write
is not all-or-nothing. -/
theorem failed_write_leaves_final_file :
    (download_file (str "X1") ⟨some (str "http://u"), none⟩
        (.writeError (str "disk full")) [] []).2.2 = false
    ∧ (str "X1" ++ str ".pdf")
        ∈ (download_file (str "X1") ⟨some (str "http://u"), none⟩
            (.writeError (str "disk full")) [] []).1 :=
  ⟨rfl, by decide⟩

/-- C3 counterexample: the destination already contains `X2.pdf` and no
previous status table exists.  `main` prunes `X2` from the queue before
dispatch (first conjunct), and because `create_output_report` iterates only
over the pruned queue, the table persisted by the run is empty: `X2` receives
no StatusRecord at all, in particular none labelled "Downloaded". -/
theorem pruned_item_gets_no_record :
    prune_queue [str "X2"] [str "X2.pdf"] = []
    ∧ create_output_report none (prune_queue [str "X2"] [str "X2.pdf"]) [str "X2.pdf"] [] = [] :=
  ⟨by decide, by decide⟩

/-- C3 (amended): when the destination already contains `<id>.pdf`, the
identifier is excluded from dispatch — it gets no row in this run's new output
(first conjunct) — and the persisted table contains a record for it only if
the previous status table already had one, in which case that previous record
is carried over unchanged (second and third conjuncts). -/
theorem pruned_item_record_only_from_previous
    (download_queue fs download_errors : List Str) (prev : List StatusRecord) (id2 : Str)
    (hid : (get_existing_downloads fs).contains id2 = true)
    (hnd : (prev.map StatusRecord.reportId).Nodup) :
    id2 ∉ (new_output (prune_queue download_queue fs) fs download_errors).map StatusRecord.reportId
    ∧ (∀ r ∈ prev, r.reportId = id2 →
        r ∈ create_output_report (some prev) (prune_queue download_queue fs) fs download_errors)
    ∧ (∀ r ∈ create_output_report (some prev) (prune_queue download_queue fs) fs download_errors,
        r.reportId = id2 → r ∈ prev) := by
  have hnotin : id2 ∉ prune_queue download_queue fs := by
    intro hmem
    unfold prune_queue at hmem
    have hpred := (List.mem_filter.mp hmem).2
    rw [hid] at hpred
    simp at hpred
  have hkeys : id2 ∉ (new_output (prune_queue download_queue fs) fs download_errors).map
      StatusRecord.reportId := by
    rw [new_output_map_reportId]
    exact hnotin
  have hnew : ∀ s ∈ new_output (prune_queue download_queue fs) fs download_errors,
      s.reportId ≠ id2 := by
    intro s hs hsk
    exact hkeys (hsk ▸ List.mem_map_of_mem StatusRecord.reportId hs)
  refine ⟨hkeys, ?_, ?_⟩
  · intro r hr hrk
    show r ∈ drop_duplicates_keep_last StatusRecord.reportId
      (prev ++ new_output (prune_queue download_queue fs) fs download_errors)
    rw [ddkl_append]
    apply List.mem_append_left
    rw [ddkl_eq_self_of_nodup _ _ hnd]
    apply List.mem_filter.mpr
    refine ⟨hr, ?_⟩
    have hany : (new_output (prune_queue download_queue fs) fs download_errors).any
        (fun s => s.reportId == r.reportId) = false := by
      rw [Bool.eq_false_iff]
      intro hc
      rcases List.any_eq_true.mp hc with ⟨s, hs, hsk⟩
      exact hnew s hs (by rw [hrk] at hsk; simpa using hsk)
    simp [hany]
  · intro r hr hrk
    have hr' : r ∈ prev ++ new_output (prune_queue download_queue fs) fs download_errors :=
      ddkl_mem hr
    rcases List.mem_append.mp hr' with h | h
    · exact h
    · exact absurd hrk (hnew r h)

theorem pruned_item_record_only_from_previous_witness :
    ((get_existing_downloads [str "X2.pdf"]).contains (str "X2") = true)
    ∧ (([{ reportId := str "X2", status := str "Downloaded", errorMessage := str "" }].map
        StatusRecord.reportId).Nodup)
    ∧ ((str "X2") ∉ (new_output (prune_queue [str "X2"] [str "X2.pdf"]) [str "X2.pdf"] []).map
        StatusRecord.reportId
      ∧ (∀ r ∈ [{ reportId := str "X2", status := str "Downloaded", errorMessage := str "" }],
          r.reportId = str "X2" →
          r ∈ create_output_report
            (some [{ reportId := str "X2", status := str "Downloaded", errorMessage := str "" }])
            (prune_queue [str "X2"] [str "X2.pdf"]) [str "X2.pdf"] [])
      ∧ (∀ r ∈ create_output_report
            (some [{ reportId := str "X2", status := str "Downloaded", errorMessage := str "" }])
            (prune_queue [str "X2"] [str "X2.pdf"]) [str "X2.pdf"] [],
          r.reportId = str "X2" →
          r ∈ [{ reportId := str "X2", status := str "Downloaded", errorMessage := str "" }])) :=
  ⟨by decide, by decide,
    pruned_item_record_only_from_previous [str "X2"] [str "X2.pdf"] []
      [{ reportId := str "X2", status := str "Downloaded", errorMessage := str "" }]
      (str "X2") (by decide) (by decide)⟩

/-- C6: every record of the previously persisted status table whose identifier
is not in the current run's queue survives the merge unchanged: deduplication
only ever drops a row in favour of a later row with the same identifier. -/
theorem prior_identifiers_preserved
    (prev : List StatusRecord) (download_queue fs download_errors : List Str)
    (r : StatusRecord)
    (hnd : (prev.map StatusRecord.reportId).Nodup)
    (hr : r ∈ prev) (habs : r.reportId ∉ download_queue) :
    r ∈ create_output_report (some prev) download_queue fs download_errors := by
  show r ∈ drop_duplicates_keep_last StatusRecord.reportId
    (prev ++ new_output download_queue fs download_errors)
  rw [ddkl_append]
  apply List.mem_append_left
  rw [ddkl_eq_self_of_nodup _ _ hnd]
  apply List.mem_filter.mpr
  refine ⟨hr, ?_⟩
  have hany : (new_output download_queue fs download_errors).any
      (fun s => s.reportId == r.reportId) = false := by
    rw [Bool.eq_false_iff]
    intro hc
    rcases List.any_eq_true.mp hc with ⟨s, hs, hsk⟩
    have hsk' : s.reportId = r.reportId := by simpa using hsk
    have : s.reportId ∈ (new_output download_queue fs download_errors).map
        StatusRecord.reportId := List.mem_map_of_mem StatusRecord.reportId hs
    rw [new_output_map_reportId, hsk'] at this
    exact habs this
  simp [hany]

theorem prior_identifiers_preserved_witness :
    (([{ reportId := str "A", status := str "Downloaded", errorMessage := str "" }].map
        StatusRecord.reportId).Nodup)
    ∧ ({ reportId := str "A", status := str "Downloaded", errorMessage := str "" }
        ∈ [({ reportId := str "A", status := str "Downloaded", errorMessage := str "" } :
            StatusRecord)])
    ∧ ((str "A") ∉ [str "B"])
    ∧ ({ reportId := str "A", status := str "Downloaded", errorMessage := str "" }
        ∈ create_output_report
          (some [{ reportId := str "A", status := str "Downloaded", errorMessage := str "" }])
          [str "B"] [] []) :=
  ⟨by decide, by decide, by decide,
    prior_identifiers_preserved
      [{ reportId := str "A", status := str "Downloaded", errorMessage := str "" }]
      [str "B"] [] []
      { reportId := str "A", status := str "Downloaded", errorMessage := str "" }
      (by decide) (by decide) (by decide)⟩

/-- C7: merging a previous table with rows for identifiers A and B with a new
run over identifiers B and C yields exactly the rows for A, B and C — A with
its previous record, B and C with the new run's rows (latest wins for B). -/
theorem merge_prev_and_new_identifiers
    (a b : StatusRecord) (idC : Str) (fs download_errors : List Str)
    (hab : a.reportId ≠ b.reportId) (hac : a.reportId ≠ idC) (hbc : b.reportId ≠ idC) :
    create_output_report (some [a, b]) [b.reportId, idC] fs download_errors =
      a :: new_output [b.reportId, idC] fs download_errors := by
  show drop_duplicates_keep_last StatusRecord.reportId
      ([a, b] ++ new_output [b.reportId, idC] fs download_errors)
    = a :: new_output [b.reportId, idC] fs download_errors
  have h1 : (status_row fs download_errors b.reportId).reportId = b.reportId :=
    status_row_reportId fs download_errors b.reportId
  have h2 : (status_row fs download_errors idC).reportId = idC :=
    status_row_reportId fs download_errors idC
  simp [new_output, ddkl_cons, drop_duplicates_keep_last, h1, h2, beq_iff_eq,
    hab, hac, hbc, Ne.symm hab, Ne.symm hac, Ne.symm hbc]

theorem merge_prev_and_new_identifiers_witness :
    ((str "A" : Str) ≠ str "B") ∧ ((str "A" : Str) ≠ str "C") ∧ ((str "B" : Str) ≠ str "C")
    ∧ create_output_report
        (some [{ reportId := str "A", status := str "Downloaded", errorMessage := str "" },
               { reportId := str "B", status := str "Failed", errorMessage := str "x" }])
        [str "B", str "C"] [] []
      = { reportId := str "A", status := str "Downloaded", errorMessage := str "" }
        :: new_output [str "B", str "C"] [] [] :=
  ⟨by decide, by decide, by decide,
    merge_prev_and_new_identifiers
      { reportId := str "A", status := str "Downloaded", errorMessage := str "" }
      { reportId := str "B", status := str "Failed", errorMessage := str "x" }
      (str "C") [] [] (by decide) (by decide) (by decide)⟩

/-- C8: both reconcilers are idempotent — rerunning `create_output_report` on
its own persisted output with the same run data, and rerunning
`update_metadata` on its own persisted output with the same run data, leave
the persisted table unchanged (the concat-then-dedup merge converges). -/
theorem reconcilers_idempotent
    (prev : List StatusRecord) (download_queue fs download_errors : List Str)
    (metadata_df : List MetadataRecord) (metadata_cols : List Str) (rd : ReportsData) :
    create_output_report
        (some (create_output_report (some prev) download_queue fs download_errors))
        download_queue fs download_errors
      = create_output_report (some prev) download_queue fs download_errors
    ∧ update_metadata (update_metadata metadata_df metadata_cols download_queue rd fs)
        metadata_cols download_queue rd fs
      = update_metadata metadata_df metadata_cols download_queue rd fs :=
  ⟨ddkl_merge_idem StatusRecord.reportId prev
      (new_output download_queue fs download_errors),
   ddkl_merge_idem MetadataRecord.BRnum metadata_df
      (new_metadata_records download_queue rd metadata_cols fs)⟩

/-- C9: `update_metadata` builds exactly one new record per identifier of the
current queue, in order; each record's flag is "Yes" exactly when the scanner
finds the identifier's artifact on disk after the download phase, and "No"
otherwise; and every carried-over column name already appears in the persisted
metadata schema — no new columns are introduced. -/
theorem metadata_records_flag_by_presence
    (download_queue : List Str) (rd : ReportsData) (metadata_cols fs : List Str) :
    (new_metadata_records download_queue rd metadata_cols fs).map MetadataRecord.BRnum
        = download_queue
    ∧ (new_metadata_records download_queue rd metadata_cols fs).Forall (fun rec =>
        rec.pdf_downloaded =
          (if (get_existing_downloads fs).contains rec.BRnum then str "Yes" else str "No")
        ∧ rec.extra.Forall (fun p => metadata_cols.contains p.1 = true)) := by
  constructor
  · unfold new_metadata_records
    rw [List.map_map]
    have h : ∀ x ∈ download_queue,
        (MetadataRecord.BRnum ∘ fun report_id =>
          ({ BRnum := report_id,
             pdf_downloaded :=
               if (get_existing_downloads fs).contains report_id then str "Yes" else str "No",
             extra :=
               if (rd.rows.map Prod.fst).contains report_id then
                 (rd.cols.filter (fun col =>
                     metadata_cols.contains col && !(col == ID_COLUMN)
                       && !(col == str "pdf_downloaded"))).map
                   (fun col => (col, reports_data_loc rd report_id col))
               else [] } : MetadataRecord)) x = id x := fun x _ => rfl
    rw [List.map_congr_left h, List.map_id]
  · rw [List.forall_iff_forall_mem]
    intro rec hrec
    unfold new_metadata_records at hrec
    rcases List.mem_map.mp hrec with ⟨report_id, hin, hEq⟩
    subst hEq
    refine ⟨rfl, ?_⟩
    show (if (rd.rows.map Prod.fst).contains report_id then
        (rd.cols.filter (fun col =>
            metadata_cols.contains col && !(col == ID_COLUMN)
              && !(col == str "pdf_downloaded"))).map
          (fun col => (col, reports_data_loc rd report_id col))
      else []).Forall (fun p => metadata_cols.contains p.1 = true)
    split
    · rw [List.forall_iff_forall_mem]
      intro p hp
      rcases List.mem_map.mp hp with ⟨col, hcol, hpEq⟩
      have hpred := (List.mem_filter.mp hcol).2
      simp only [Bool.and_eq_true] at hpred
      rw [← hpEq]
      exact hpred.1.1
    · trivial

/-- C10 counterexample: the directory contains `X2x.pdf` — a `*.pdf` file
whose first characters match the identifier `X2` — and unit `X2` reported a
failure.  The claim would record `X2` as "Downloaded" with an empty error
message and flag "Yes"; the code tests the exact name `X2.pdf`, so it records
"Failed" with the recorded message, and the metadata flag stays "No". -/
theorem matching_pdf_name_not_enough :
    new_output [str "X2"] [str "X2x.pdf"] [str "X2", str "Network error: boom"]
      = [{ reportId := str "X2", status := str "Failed",
           errorMessage := str "Network error: boom" }]
    ∧ new_metadata_records [str "X2"] ⟨[], []⟩ [] [str "X2x.pdf"]
      = [{ BRnum := str "X2", pdf_downloaded := str "No", extra := [] }] :=
  ⟨by decide, by decide⟩

/-- C10 (amended): the status label and the metadata flag are determined
solely by the presence of a file named exactly `<identifier>.pdf` (not hidden,
so the glob sees it), not by the outcome the task reported: whatever the error
ledger says, an item whose exactly-named file exists is recorded "Downloaded"
with an empty error message and flag "Yes". -/
theorem status_determined_by_exact_file
    (download_queue fs download_errors : List Str) (rd : ReportsData)
    (metadata_cols : List Str) (id2 : Str)
    (hfile : (id2 ++ str ".pdf") ∈ fs)
    (hvis : glob_pdf (id2 ++ str ".pdf") = true) :
    (∀ r ∈ new_output download_queue fs download_errors, r.reportId = id2 →
        r = { reportId := id2, status := str "Downloaded", errorMessage := str "" })
    ∧ (∀ rec ∈ new_metadata_records download_queue rd metadata_cols fs,
        rec.BRnum = id2 → rec.pdf_downloaded = str "Yes") := by
  have hex : id2 ∈ get_existing_downloads fs := by
    unfold get_existing_downloads
    refine List.mem_map.mpr ⟨id2 ++ str ".pdf", List.mem_filter.mpr ⟨hfile, hvis⟩, ?_⟩
    have hlen : (id2 ++ str ".pdf").length = id2.length + 4 := by
      simp [str, String.toList]
    rw [hlen, Nat.add_sub_cancel]
    exact List.take_left id2 (str ".pdf")
  constructor
  · intro r hr hid
    rcases List.mem_map.mp hr with ⟨i, hi, hEq⟩
    have hik : i = id2 := by
      rw [← status_row_reportId fs download_errors i, hEq, hid]
    subst hik
    rw [← hEq]
    unfold status_row
    rw [if_pos (List.elem_iff.mpr hfile)]
  · intro rec hrec hid
    rcases List.mem_map.mp hrec with ⟨report_id, hin, hEq⟩
    have hik : report_id = id2 := by rw [← hEq] at hid; exact hid
    subst hik
    rw [← hEq]
    show (if (get_existing_downloads fs).contains report_id then str "Yes" else str "No")
      = str "Yes"
    rw [if_pos (List.elem_iff.mpr hex)]

theorem status_determined_by_exact_file_witness :
    ((str "X2" ++ str ".pdf") ∈ [str "X2.pdf"])
    ∧ (glob_pdf (str "X2" ++ str ".pdf") = true)
    ∧ ((∀ r ∈ new_output [str "X2"] [str "X2.pdf"] [str "X2", str "Network error: boom"],
          r.reportId = str "X2" →
          r = { reportId := str "X2", status := str "Downloaded", errorMessage := str "" })
      ∧ (∀ rec ∈ new_metadata_records [str "X2"] ⟨[], []⟩ [] [str "X2.pdf"],
          rec.BRnum = str "X2" → rec.pdf_downloaded = str "Yes")) :=
  ⟨by decide, by decide,
    status_determined_by_exact_file [str "X2"] [str "X2.pdf"]
      [str "X2", str "Network error: boom"] ⟨[], []⟩ [] (str "X2")
      (by decide) (by decide)⟩

end PDFDownloader
